import Mathlib

/-!
# Verification of the line-notion-dictionary pipeline

Shallow embedding of the repository's three source files
(`src/api/webhook.ts`, `src/dist/server.js`, and the unnamed Notion probe
script), together with proofs about the claims of its specification.

The original field names of the dictionary entry are Japanese
(単語, 発音記号, 品詞, 意味, 語源, コロケーション, 例文, CEFR, 類義語,
出典URL); Lean identifiers cannot contain CJK characters, so the Lean record
fields use the specification's English names
(word, phonetic, partOfSpeech, meanings, etymology, collocations, examples,
cefrLevel, synonyms, sourceUrl).  The JSON object keys, which are string
data, keep the original Japanese spelling.
-/

/-- A JSON value, as produced by `JSON.parse`.  Numbers are modelled as
integers; no claim inspects numeric contents, only the type tags matter. -/
inductive Json where
  | null : Json
  | bool (b : Bool) : Json
  | num (n : Int) : Json
  | str (s : String) : Json
  | arr (xs : List Json) : Json
  | obj (fields : List (String × Json)) : Json

/-- Key lookup in a parsed JSON object.  `JSON.parse` keeps the last
occurrence of a duplicated key, hence the left fold. -/
def lookupKey (fields : List (String × Json)) (k : String) : Option Json :=
  fields.foldl (fun acc p => if p.fst = k then some p.snd else acc) none

/-- A single zod validation issue.  zod's `.parse` throws a `ZodError`
carrying a list of issues; this embedding reports the first one, which is
all the claims observe (they only distinguish success from failure). -/
inductive ZodIssue where
  | invalidType (path : String) : ZodIssue
  | tooSmall (path : String) : ZodIssue
  | tooBig (path : String) : ZodIssue
  | invalidUrl (path : String) : ZodIssue
deriving Repr, DecidableEq

/-- One example sentence: 例文 item with keys 英 (required) and 日
(optional), from the zod schema in `src/api/webhook.ts` line 51. -/
structure ExampleSentence where
  source : String
  translation : Option String
deriving Repr, DecidableEq

/-- The validated dictionary entry (type `Entry = z.infer<typeof Schema>`,
`src/api/webhook.ts` lines 44-56). -/
structure Entry where
  word : String
  phonetic : Option String
  partOfSpeech : Option (List String)
  meanings : List String
  etymology : Option String
  collocations : Option (List String)
  examples : Option (List ExampleSentence)
  cefrLevel : Option String
  synonyms : Option (List String)
  sourceUrl : Option String
deriving Repr, DecidableEq

/-- Split a character list at its first colon: the scheme part and the
remainder. -/
def schemeSplit : List Char → Option (List Char × List Char)
  | [] => none
  | c :: cs =>
      if c = ':' then some ([], cs)
      else
        match schemeSplit cs with
        | some (sch, rest) => some (c :: sch, rest)
        | none => none

/-- Model of zod's `z.string().url()` test, which accepts a string exactly
when the WHATWG `URL` constructor accepts it.  Simplified to the
constructor's scheme requirement: a non-empty ASCII-alphabetic scheme,
a colon, and a non-empty remainder.  Claims use this check only through
hypotheses and at concrete strings, so the simplification is harmless. -/
def isValidURL (s : String) : Bool :=
  match schemeSplit s.data with
  | some (sch, rest) =>
      !sch.isEmpty && sch.all Char.isAlpha && !rest.isEmpty
  | none => false

/-- zod required `z.string()` field: present and a string. -/
def parseReqString (path : String) (v : Option Json) : Except ZodIssue String :=
  match v with
  | some (.str s) => .ok s
  | _ => .error (.invalidType path)

/-- zod `z.string().optional()` field: missing yields `none`; anything
present must be a string (`null` is rejected). -/
def parseOptString (path : String) (v : Option Json) :
    Except ZodIssue (Option String) :=
  match v with
  | none => .ok none
  | some (.str s) => .ok (some s)
  | some _ => .error (.invalidType path)

/-- zod `z.array(z.string())`: an array whose items are all strings. -/
def parseStringList (path : String) (v : Json) :
    Except ZodIssue (List String) :=
  match v with
  | .arr xs =>
      xs.mapM (fun j =>
        match j with
        | .str s => Except.ok s
        | _ => Except.error (ZodIssue.invalidType path))
  | _ => .error (.invalidType path)

/-- zod `z.array(z.string()).optional()`. -/
def parseOptStringList (path : String) (v : Option Json) :
    Except ZodIssue (Option (List String)) :=
  match v with
  | none => .ok none
  | some j => (parseStringList path j).map some

/-- zod `z.array(z.string()).min(1)` — the 意味 field. -/
def parseMeanings (v : Option Json) : Except ZodIssue (List String) :=
  match v with
  | some j =>
      match parseStringList "意味" j with
      | .error e => .error e
      | .ok xs => if xs.length < 1 then .error (.tooSmall "意味") else .ok xs
  | none => .error (.invalidType "意味")

/-- zod `z.object(...)` for one 例文 item: 英 required string, 日 optional
string. -/
def parseExampleSentence (v : Json) : Except ZodIssue ExampleSentence :=
  match v with
  | .obj fs => do
      let en ← parseReqString "例文.英" (lookupKey fs "英")
      let ja ← parseOptString "例文.日" (lookupKey fs "日")
      .ok ⟨en, ja⟩
  | _ => .error (.invalidType "例文")

/-- zod `z.array(z.object(...)).min(1).max(3).optional()` — the 例文 field. -/
def parseExamples (v : Option Json) :
    Except ZodIssue (Option (List ExampleSentence)) :=
  match v with
  | none => .ok none
  | some (.arr xs) =>
      match xs.mapM parseExampleSentence with
      | .error e => .error e
      | .ok ys =>
          if ys.length < 1 then .error (.tooSmall "例文")
          else if 3 < ys.length then .error (.tooBig "例文")
          else .ok (some ys)
  | some _ => .error (.invalidType "例文")

/-- The zod `Schema.parse` of this repository, over a parsed JSON candidate.
`checkUrl := false` is the schema of `src/api/webhook.ts` lines 44-55, where
出典URL is a plain `z.string().optional()`; `checkUrl := true` is the schema
of `src/dist/server.js` lines 38-49, whose only difference is
`z.string().url().optional()` for 出典URL.  zod strips unknown keys and a
missing optional key yields an absent field. -/
def SchemaParse (checkUrl : Bool) (j : Json) : Except ZodIssue Entry :=
  match j with
  | .obj fs => do
      let w ← parseReqString "単語" (lookupKey fs "単語")
      let ph ← parseOptString "発音記号" (lookupKey fs "発音記号")
      let pos ← parseOptStringList "品詞" (lookupKey fs "品詞")
      let mean ← parseMeanings (lookupKey fs "意味")
      let ety ← parseOptString "語源" (lookupKey fs "語源")
      let col ← parseOptStringList "コロケーション" (lookupKey fs "コロケーション")
      let ex ← parseExamples (lookupKey fs "例文")
      let cefr ← parseOptString "CEFR" (lookupKey fs "CEFR")
      let syn ← parseOptStringList "類義語" (lookupKey fs "類義語")
      let url ← parseOptString "出典URL" (lookupKey fs "出典URL")
      match checkUrl, url with
      | true, some u =>
          if isValidURL u then .ok ⟨w, ph, pos, mean, ety, col, ex, cefr, syn, url⟩
          else .error (.invalidUrl "出典URL")
      | _, _ => .ok ⟨w, ph, pos, mean, ety, col, ex, cefr, syn, url⟩
  | _ => .error (.invalidType "")

/-- `Schema.parse` of `src/api/webhook.ts` (no URL-format check). -/
def Schema_parse (j : Json) : Except ZodIssue Entry := SchemaParse false j

/-- `Schema.parse` of `src/dist/server.js` (with the URL-format check). -/
def SchemaServer_parse (j : Json) : Except ZodIssue Entry := SchemaParse true j

/- Declarative reading of the declared schema, used to state that parsing
succeeds exactly on conforming candidates. -/

/-- The candidate value is a JSON string. -/
def isStrJson : Json → Bool
  | .str _ => true
  | _ => false

/-- The candidate value is a JSON array of strings. -/
def isStrArrJson : Json → Bool
  | .arr xs => xs.all isStrJson
  | _ => false

/-- An optional field conforms when missing or conforming. -/
def optConforms (p : Json → Bool) : Option Json → Bool
  | none => true
  | some v => p v

/-- A required string field conforms: present and a string. -/
def reqStrConforms : Option Json → Bool
  | some (.str _) => true
  | _ => false

/-- One 例文 item conforms: an object with a string 英 and an optional
string 日. -/
def exampleConforms : Json → Bool
  | .obj fs =>
      reqStrConforms (lookupKey fs "英") &&
      optConforms isStrJson (lookupKey fs "日")
  | _ => false

/-- The 意味 field conforms: a string array with at least one item. -/
def meaningsConforms : Option Json → Bool
  | some (.arr xs) => xs.all isStrJson && decide (1 ≤ xs.length)
  | _ => false

/-- The 例文 field conforms: missing, or an array of 1-3 conforming items. -/
def examplesConforms : Option Json → Bool
  | none => true
  | some (.arr xs) =>
      xs.all exampleConforms && decide (1 ≤ xs.length) && decide (xs.length ≤ 3)
  | some _ => false

/-- Declarative statement of the `src/api/webhook.ts` schema: the candidate
is an object whose 単語 is a string, 意味 a non-empty string array, 例文 (when
present) an array of 1-3 conforming items, and the remaining optional fields
are strings or string arrays when present. -/
def matchesSchema (j : Json) : Bool :=
  match j with
  | .obj fs =>
      reqStrConforms (lookupKey fs "単語") &&
      optConforms isStrJson (lookupKey fs "発音記号") &&
      optConforms isStrArrJson (lookupKey fs "品詞") &&
      meaningsConforms (lookupKey fs "意味") &&
      optConforms isStrJson (lookupKey fs "語源") &&
      optConforms isStrArrJson (lookupKey fs "コロケーション") &&
      examplesConforms (lookupKey fs "例文") &&
      optConforms isStrJson (lookupKey fs "CEFR") &&
      optConforms isStrArrJson (lookupKey fs "類義語") &&
      optConforms isStrJson (lookupKey fs "出典URL")
  | _ => false

example : (Schema_parse (.obj [("単語", .str "a"), ("意味", .arr [.str "x"])])).isOk = true := by decide

example : (Schema_parse (.obj [("単語", .str "a"), ("意味", .arr [])])).isOk = false := by decide

example : matchesSchema (.obj [("単語", .str "a"), ("意味", .arr [.str "x"])]) = true := by decide

/-! ## Basic lemmas about `Except` computations -/

@[simp]
theorem isOk_error {ε α : Type} (e : ε) :
    (Except.error e : Except ε α).isOk = false := rfl

@[simp]
theorem isOk_ok {ε α : Type} (a : α) :
    (Except.ok a : Except ε α).isOk = true := rfl

theorem bind_isOk {ε α β : Type} (x : Except ε α) (f : α → Except ε β) :
    (x >>= f).isOk = match x with
      | .ok a => (f a).isOk
      | .error _ => false := by
  cases x <;> rfl

theorem map_isOk {ε α β : Type} (f : α → β) (x : Except ε α) :
    (Except.map f x).isOk = x.isOk := by
  cases x <;> rfl

theorem mapM_isOk_all {ε α β : Type} (f : α → Except ε β) (xs : List α) :
    (xs.mapM f).isOk = xs.all fun x => (f x).isOk := by
  induction xs with
  | nil => rfl
  | cons a as ih =>
    rw [List.mapM_cons, List.all_cons]
    cases h : f a with
    | error e => simp [bind_isOk, h]
    | ok b =>
      simp only [bind_isOk, isOk_ok, Bool.true_and]
      cases h2 : as.mapM f with
      | error e =>
          rw [h2] at ih
          simp [bind_isOk, ← ih]
      | ok bs =>
          rw [h2] at ih
          simp [bind_isOk, ← ih]
          rfl

theorem mapM_ok_length {ε α β : Type} (f : α → Except ε β) (xs : List α)
    (ys : List β) (h : xs.mapM f = .ok ys) : ys.length = xs.length := by
  induction xs generalizing ys with
  | nil =>
    rw [List.mapM_nil] at h
    cases h
    rfl
  | cons a as ih =>
    rw [List.mapM_cons] at h
    cases ha : f a with
    | error e => rw [ha] at h; cases h
    | ok b =>
      rw [ha] at h
      cases has : as.mapM f with
      | error e => rw [has] at h; cases h
      | ok bs =>
        rw [has] at h
        cases h
        simp [ih bs has]

/-! ## Success conditions of the field parsers -/

theorem parseReqString_isOk (p : String) (v : Option Json) :
    (parseReqString p v).isOk = reqStrConforms v := by
  rcases v with _ | j
  · rfl
  · cases j <;> rfl

theorem parseOptString_isOk (p : String) (v : Option Json) :
    (parseOptString p v).isOk = optConforms isStrJson v := by
  rcases v with _ | j
  · rfl
  · cases j <;> rfl

theorem parseStringList_isOk (p : String) (j : Json) :
    (parseStringList p j).isOk = isStrArrJson j := by
  cases j <;> try rfl
  case arr xs =>
    simp only [parseStringList, isStrArrJson]
    rw [mapM_isOk_all]
    congr 1
    funext x
    cases x <;> rfl

theorem parseOptStringList_isOk (p : String) (v : Option Json) :
    (parseOptStringList p v).isOk = optConforms isStrArrJson v := by
  rcases v with _ | j
  · rfl
  · show ((parseStringList p j).map some).isOk = isStrArrJson j
    rw [map_isOk, parseStringList_isOk]

theorem parseMeanings_isOk (v : Option Json) :
    (parseMeanings v).isOk = meaningsConforms v := by
  rcases v with _ | j
  · rfl
  cases j <;> try rfl
  case arr xs =>
    simp only [parseMeanings, meaningsConforms]
    cases h : parseStringList "意味" (.arr xs) with
    | error e =>
        have hc := parseStringList_isOk "意味" (.arr xs)
        rw [h] at hc
        simp only [isOk_error] at hc
        simp only [isStrArrJson] at hc
        simp [← hc]
    | ok ys =>
        have hc := parseStringList_isOk "意味" (.arr xs)
        rw [h] at hc
        simp only [isOk_ok] at hc
        simp only [isStrArrJson] at hc
        have hlen : ys.length = xs.length := by
          apply mapM_ok_length _ xs ys
          simpa [parseStringList] using h
        show (if ys.length < 1 then (Except.error (ZodIssue.tooSmall "意味") :
            Except ZodIssue (List String)) else Except.ok ys).isOk =
          (xs.all isStrJson && decide (1 ≤ xs.length))
        rw [hlen, ← hc]
        by_cases hx : xs.length < 1
        · simp [hx]
        · simp [hx]
          omega

theorem parseExampleSentence_isOk (v : Json) :
    (parseExampleSentence v).isOk = exampleConforms v := by
  cases v <;> try rfl
  case obj fs =>
    simp only [parseExampleSentence, exampleConforms]
    cases h1 : parseReqString "例文.英" (lookupKey fs "英") with
    | error e =>
        have hc := parseReqString_isOk "例文.英" (lookupKey fs "英")
        rw [h1] at hc
        simp only [isOk_error] at hc
        simp [bind_isOk, h1, ← hc]
    | ok en =>
        have hc := parseReqString_isOk "例文.英" (lookupKey fs "英")
        rw [h1] at hc
        simp only [isOk_ok] at hc
        cases h2 : parseOptString "例文.日" (lookupKey fs "日") with
        | error e =>
            have hd := parseOptString_isOk "例文.日" (lookupKey fs "日")
            rw [h2] at hd
            simp only [isOk_error] at hd
            simp [bind_isOk, h1, h2, ← hc, ← hd]
        | ok ja =>
            have hd := parseOptString_isOk "例文.日" (lookupKey fs "日")
            rw [h2] at hd
            simp only [isOk_ok] at hd
            simp [bind_isOk, h1, h2, ← hc, ← hd]

theorem parseExamples_isOk (v : Option Json) :
    (parseExamples v).isOk = examplesConforms v := by
  rcases v with _ | j
  · rfl
  cases j <;> try rfl
  case arr xs =>
    simp only [parseExamples, examplesConforms]
    have hall : (xs.mapM parseExampleSentence).isOk = xs.all exampleConforms := by
      rw [mapM_isOk_all]
      congr 1
      funext x
      exact parseExampleSentence_isOk x
    cases h : xs.mapM parseExampleSentence with
    | error e =>
        rw [h] at hall
        simp only [isOk_error] at hall
        simp [← hall]
    | ok ys =>
        rw [h] at hall
        simp only [isOk_ok] at hall
        have hlen : ys.length = xs.length := mapM_ok_length _ xs ys h
        show (if ys.length < 1 then (Except.error (ZodIssue.tooSmall "例文") :
            Except ZodIssue (Option (List ExampleSentence)))
          else if 3 < ys.length then Except.error (ZodIssue.tooBig "例文")
          else Except.ok (some ys)).isOk =
          (xs.all exampleConforms && decide (1 ≤ xs.length) &&
            decide (xs.length ≤ 3))
        rw [hlen, ← hall]
        by_cases h1 : xs.length < 1
        · simp [h1]
        · by_cases h3 : 3 < xs.length
          · simp [h1, h3]
          · simp [h1, h3]
            omega

@[simp]
theorem ok_bind {ε α β : Type} (a : α) (f : α → Except ε β) :
    (Except.ok a >>= f) = f a := rfl

@[simp]
theorem error_bind {ε α β : Type} (e : ε) (f : α → Except ε β) :
    ((Except.error e : Except ε α) >>= f) = Except.error e := rfl

/-- `Schema.parse` of `src/api/webhook.ts` succeeds exactly on candidates
that conform to the declared schema. -/
theorem Schema_parse_isOk (j : Json) :
    (Schema_parse j).isOk = matchesSchema j := by
  cases j <;> try rfl
  case obj fs =>
    cases h1 : parseReqString "単語" (lookupKey fs "単語") with
    | error e1 =>
      have c1 := parseReqString_isOk "単語" (lookupKey fs "単語")
      rw [h1] at c1
      simp only [isOk_error] at c1
      simp [Schema_parse, SchemaParse, matchesSchema, h1, ← c1]
    | ok w =>
      have c1 := parseReqString_isOk "単語" (lookupKey fs "単語")
      rw [h1] at c1
      simp only [isOk_ok] at c1
      cases h2 : parseOptString "発音記号" (lookupKey fs "発音記号") with
      | error e2 =>
        have c2 := parseOptString_isOk "発音記号" (lookupKey fs "発音記号")
        rw [h2] at c2
        simp only [isOk_error] at c2
        simp [Schema_parse, SchemaParse, matchesSchema, h1, h2, ← c2]
      | ok ph =>
        have c2 := parseOptString_isOk "発音記号" (lookupKey fs "発音記号")
        rw [h2] at c2
        simp only [isOk_ok] at c2
        cases h3 : parseOptStringList "品詞" (lookupKey fs "品詞") with
        | error e3 =>
          have c3 := parseOptStringList_isOk "品詞" (lookupKey fs "品詞")
          rw [h3] at c3
          simp only [isOk_error] at c3
          simp [Schema_parse, SchemaParse, matchesSchema, h1, h2, h3, ← c3]
        | ok pos =>
          have c3 := parseOptStringList_isOk "品詞" (lookupKey fs "品詞")
          rw [h3] at c3
          simp only [isOk_ok] at c3
          cases h4 : parseMeanings (lookupKey fs "意味") with
          | error e4 =>
            have c4 := parseMeanings_isOk (lookupKey fs "意味")
            rw [h4] at c4
            simp only [isOk_error] at c4
            simp [Schema_parse, SchemaParse, matchesSchema, h1, h2, h3, h4,
              ← c4]
          | ok mean =>
            have c4 := parseMeanings_isOk (lookupKey fs "意味")
            rw [h4] at c4
            simp only [isOk_ok] at c4
            cases h5 : parseOptString "語源" (lookupKey fs "語源") with
            | error e5 =>
              have c5 := parseOptString_isOk "語源" (lookupKey fs "語源")
              rw [h5] at c5
              simp only [isOk_error] at c5
              simp [Schema_parse, SchemaParse, matchesSchema, h1, h2, h3, h4,
                h5, ← c5]
            | ok ety =>
              have c5 := parseOptString_isOk "語源" (lookupKey fs "語源")
              rw [h5] at c5
              simp only [isOk_ok] at c5
              cases h6 : parseOptStringList "コロケーション"
                  (lookupKey fs "コロケーション") with
              | error e6 =>
                have c6 := parseOptStringList_isOk "コロケーション"
                  (lookupKey fs "コロケーション")
                rw [h6] at c6
                simp only [isOk_error] at c6
                simp [Schema_parse, SchemaParse, matchesSchema, h1, h2, h3,
                  h4, h5, h6, ← c6]
              | ok col =>
                have c6 := parseOptStringList_isOk "コロケーション"
                  (lookupKey fs "コロケーション")
                rw [h6] at c6
                simp only [isOk_ok] at c6
                cases h7 : parseExamples (lookupKey fs "例文") with
                | error e7 =>
                  have c7 := parseExamples_isOk (lookupKey fs "例文")
                  rw [h7] at c7
                  simp only [isOk_error] at c7
                  simp [Schema_parse, SchemaParse, matchesSchema, h1, h2, h3,
                    h4, h5, h6, h7, ← c7]
                | ok ex =>
                  have c7 := parseExamples_isOk (lookupKey fs "例文")
                  rw [h7] at c7
                  simp only [isOk_ok] at c7
                  cases h8 : parseOptString "CEFR" (lookupKey fs "CEFR") with
                  | error e8 =>
                    have c8 := parseOptString_isOk "CEFR" (lookupKey fs "CEFR")
                    rw [h8] at c8
                    simp only [isOk_error] at c8
                    simp [Schema_parse, SchemaParse, matchesSchema, h1, h2,
                      h3, h4, h5, h6, h7, h8, ← c8]
                  | ok cefr =>
                    have c8 := parseOptString_isOk "CEFR" (lookupKey fs "CEFR")
                    rw [h8] at c8
                    simp only [isOk_ok] at c8
                    cases h9 : parseOptStringList "類義語"
                        (lookupKey fs "類義語") with
                    | error e9 =>
                      have c9 := parseOptStringList_isOk "類義語"
                        (lookupKey fs "類義語")
                      rw [h9] at c9
                      simp only [isOk_error] at c9
                      simp [Schema_parse, SchemaParse, matchesSchema, h1, h2,
                        h3, h4, h5, h6, h7, h8, h9, ← c9]
                    | ok syn =>
                      have c9 := parseOptStringList_isOk "類義語"
                        (lookupKey fs "類義語")
                      rw [h9] at c9
                      simp only [isOk_ok] at c9
                      cases h10 : parseOptString "出典URL"
                          (lookupKey fs "出典URL") with
                      | error e10 =>
                        have c10 := parseOptString_isOk "出典URL"
                          (lookupKey fs "出典URL")
                        rw [h10] at c10
                        simp only [isOk_error] at c10
                        simp [Schema_parse, SchemaParse, matchesSchema, h1,
                          h2, h3, h4, h5, h6, h7, h8, h9, h10, ← c10]
                      | ok url =>
                        have c10 := parseOptString_isOk "出典URL"
                          (lookupKey fs "出典URL")
                        rw [h10] at c10
                        simp only [isOk_ok] at c10
                        cases url <;>
                          simp [Schema_parse, SchemaParse, matchesSchema, h1,
                            h2, h3, h4, h5, h6, h7, h8, h9, h10, ← c1, ← c2,
                            ← c3, ← c4, ← c5, ← c6, ← c7, ← c8, ← c9, ← c10]

/-- A successful parse is only produced from an object candidate. -/
theorem SchemaParse_ok_obj (u : Bool) (j : Json) (e : Entry)
    (h : SchemaParse u j = .ok e) : ∃ fs, j = .obj fs := by
  cases j with
  | obj fs => exact ⟨fs, rfl⟩
  | null => simp [SchemaParse] at h
  | bool b => simp [SchemaParse] at h
  | num n => simp [SchemaParse] at h
  | str s => simp [SchemaParse] at h
  | arr xs => simp [SchemaParse] at h

/-- Inversion of a successful parse: every field of the returned `Entry` is
the output of the corresponding field parser, and under the URL-checking
schema a present source URL passed the URL test. -/
theorem SchemaParse_ok_fields (u : Bool) (fs : List (String × Json))
    (e : Entry) (h : SchemaParse u (.obj fs) = .ok e) :
    parseReqString "単語" (lookupKey fs "単語") = .ok e.word ∧
    parseOptString "発音記号" (lookupKey fs "発音記号") = .ok e.phonetic ∧
    parseOptStringList "品詞" (lookupKey fs "品詞") = .ok e.partOfSpeech ∧
    parseMeanings (lookupKey fs "意味") = .ok e.meanings ∧
    parseOptString "語源" (lookupKey fs "語源") = .ok e.etymology ∧
    parseOptStringList "コロケーション" (lookupKey fs "コロケーション") =
      .ok e.collocations ∧
    parseExamples (lookupKey fs "例文") = .ok e.examples ∧
    parseOptString "CEFR" (lookupKey fs "CEFR") = .ok e.cefrLevel ∧
    parseOptStringList "類義語" (lookupKey fs "類義語") = .ok e.synonyms ∧
    parseOptString "出典URL" (lookupKey fs "出典URL") = .ok e.sourceUrl ∧
    (u = true → ∀ s, e.sourceUrl = some s → isValidURL s = true) := by
  simp only [SchemaParse] at h
  cases h1 : parseReqString "単語" (lookupKey fs "単語") with
  | error e1 => rw [h1] at h; simp at h
  | ok w =>
  rw [h1, ok_bind] at h
  cases h2 : parseOptString "発音記号" (lookupKey fs "発音記号") with
  | error e2 => rw [h2] at h; simp at h
  | ok ph =>
  rw [h2, ok_bind] at h
  cases h3 : parseOptStringList "品詞" (lookupKey fs "品詞") with
  | error e3 => rw [h3] at h; simp at h
  | ok pos =>
  rw [h3, ok_bind] at h
  cases h4 : parseMeanings (lookupKey fs "意味") with
  | error e4 => rw [h4] at h; simp at h
  | ok mean =>
  rw [h4, ok_bind] at h
  cases h5 : parseOptString "語源" (lookupKey fs "語源") with
  | error e5 => rw [h5] at h; simp at h
  | ok ety =>
  rw [h5, ok_bind] at h
  cases h6 : parseOptStringList "コロケーション" (lookupKey fs "コロケーション") with
  | error e6 => rw [h6] at h; simp at h
  | ok col =>
  rw [h6, ok_bind] at h
  cases h7 : parseExamples (lookupKey fs "例文") with
  | error e7 => rw [h7] at h; simp at h
  | ok ex =>
  rw [h7, ok_bind] at h
  cases h8 : parseOptString "CEFR" (lookupKey fs "CEFR") with
  | error e8 => rw [h8] at h; simp at h
  | ok cefr =>
  rw [h8, ok_bind] at h
  cases h9 : parseOptStringList "類義語" (lookupKey fs "類義語") with
  | error e9 => rw [h9] at h; simp at h
  | ok syn =>
  rw [h9, ok_bind] at h
  cases h10 : parseOptString "出典URL" (lookupKey fs "出典URL") with
  | error e10 => rw [h10] at h; simp at h
  | ok url =>
  rw [h10, ok_bind] at h
  cases u with
  | false =>
      cases url with
      | none =>
          replace h : (Except.ok ⟨w, ph, pos, mean, ety, col, ex, cefr, syn,
            none⟩ : Except ZodIssue Entry) = Except.ok e := h
          cases h
          exact ⟨rfl, rfl, rfl, rfl, rfl, rfl, rfl, rfl, rfl, rfl,
            fun hf => Bool.noConfusion hf⟩
      | some s =>
          replace h : (Except.ok ⟨w, ph, pos, mean, ety, col, ex, cefr, syn,
            some s⟩ : Except ZodIssue Entry) = Except.ok e := h
          cases h
          exact ⟨rfl, rfl, rfl, rfl, rfl, rfl, rfl, rfl, rfl, rfl,
            fun hf => Bool.noConfusion hf⟩
  | true =>
      cases url with
      | none =>
          replace h : (Except.ok ⟨w, ph, pos, mean, ety, col, ex, cefr, syn,
            none⟩ : Except ZodIssue Entry) = Except.ok e := h
          cases h
          refine ⟨rfl, rfl, rfl, rfl, rfl, rfl, rfl, rfl, rfl, rfl, ?_⟩
          intro _ s2 hs2
          cases hs2
      | some s =>
          replace h : (if isValidURL s = true then
              (Except.ok ⟨w, ph, pos, mean, ety, col, ex, cefr, syn, some s⟩ :
                Except ZodIssue Entry)
            else Except.error (ZodIssue.invalidUrl "出典URL")) =
              Except.ok e := h
          by_cases hv : isValidURL s = true
          · rw [if_pos hv] at h
            cases h
            refine ⟨rfl, rfl, rfl, rfl, rfl, rfl, rfl, rfl, rfl, rfl, ?_⟩
            intro _ s2 hs2
            cases hs2
            exact hv
          · rw [if_neg hv] at h
            cases h

/-! ## The retry wrapper (`retry`, `src/api/webhook.ts` lines 14-26)

An asynchronous operation is modelled as a function from the attempt index
to its outcome together with the external calls it issued during that
attempt.  `sleep` is recorded as a trace of requested delays. -/

/-- The observable result of a `retry` run.  `fnError` is an error thrown by
the wrapped operation and rethrown by the wrapper; `retryFailed` is the
wrapper's own trailing `throw new Error("Retry failed")`. -/
inductive RetryOutcome (E T : Type) where
  | ok (t : T) : RetryOutcome E T
  | fnError (e : E) : RetryOutcome E T
  | retryFailed : RetryOutcome E T
deriving Repr, DecidableEq

/-- Full trace of a `retry` run: outcome, number of invocations of the
wrapped operation, the sleeps performed between attempts (in order, in
milliseconds), and the external calls emitted by the attempts (in order). -/
structure RetryTrace (E T C : Type) where
  outcome : RetryOutcome E T
  calls : Nat
  sleeps : List Nat
  emitted : List C
deriving Repr, DecidableEq

/-- The loop of `retry`: `i` is the current loop index, `remaining` the
number of loop iterations left (`maxRetries - i`), `delay` the current
backoff delay.  Mirrors: try `fn()`; on failure, throw if
`i === maxRetries - 1` (i.e. `remaining = 1`), otherwise sleep `delay`,
double it, and continue; when the loop bound is exhausted without entering
the body, throw "Retry failed". -/
def retryAux {E T C : Type} (fn : Nat → Except E T × List C) (i : Nat)
    (remaining : Nat) (delay : Nat) : RetryTrace E T C :=
  match remaining with
  | 0 => ⟨.retryFailed, 0, [], []⟩
  | r + 1 =>
      match fn i with
      | (.ok t, cs) => ⟨.ok t, 1, [], cs⟩
      | (.error e, cs) =>
          if r = 0 then ⟨.fnError e, 1, [], cs⟩
          else
            let t := retryAux fn (i + 1) r (2 * delay)
            ⟨t.outcome, t.calls + 1, delay :: t.sleeps, cs ++ t.emitted⟩

/-- `retry(fn, maxRetries, delay)` over an operation that also emits
external calls.  `maxRetries` is an `Int`: the JavaScript loop
`for (let i = 0; i < maxRetries; i++)` runs `max(maxRetries, 0)`
iterations. -/
def retryRun {E T C : Type} (fn : Nat → Except E T × List C)
    (maxRetries : Int) (delay : Nat) : RetryTrace E T C :=
  retryAux fn 0 maxRetries.toNat delay

/-- `retry(fn, maxRetries, delay)` over a plain operation (no emitted
calls), the form used by the claims about the wrapper itself. -/
def retry {E T : Type} (fn : Nat → Except E T) (maxRetries : Int)
    (delay : Nat) : RetryTrace E T Unit :=
  retryRun (fun n => (fn n, [])) maxRetries delay

/-! ### Behaviour of the retry loop -/

theorem retryAux_fail_then_ok {E T C : Type} (fn : Nat → Except E T × List C)
    (errs : Nat → E) (v : T) (N : Nat) :
    ∀ (i r d : Nat), (∀ k, k < N → (fn (i + k)).1 = .error (errs (i + k))) →
    (fn (i + N)).1 = .ok v → N < r →
    (retryAux fn i r d).outcome = .ok v ∧
    (retryAux fn i r d).calls = N + 1 ∧
    (retryAux fn i r d).sleeps = (List.range N).map (fun k => d * 2 ^ k) := by
  induction N with
  | zero =>
      intro i r d _ hok hr
      obtain ⟨r0, rfl⟩ : ∃ r0, r = r0 + 1 :=
        ⟨r - 1, by omega⟩
      rcases hfn : fn i with ⟨res, cs⟩
      have : res = .ok v := by
        have := hok
        rw [Nat.add_zero] at this
        rw [hfn] at this
        exact this
      subst this
      simp [retryAux, hfn]
  | succ n ih =>
      intro i r d hfail hok hr
      obtain ⟨r0, rfl⟩ : ∃ r0, r = r0 + 1 := ⟨r - 1, by omega⟩
      rcases hfn : fn i with ⟨res, cs⟩
      have hres : res = .error (errs i) := by
        have h0 := hfail 0 (Nat.succ_pos n)
        rw [Nat.add_zero] at h0
        rw [hfn] at h0
        exact h0
      subst hres
      have hr0 : r0 ≠ 0 := by omega
      have hrec := ih (i + 1) r0 (2 * d)
        (fun k hk => by
          have := hfail (k + 1) (by omega)
          rw [show i + (k + 1) = i + 1 + k by omega] at this
          exact this)
        (by rw [show i + 1 + n = i + (n + 1) by omega]; exact hok)
        (by omega)
      simp only [retryAux, hfn, if_neg hr0]
      refine ⟨hrec.1, by rw [hrec.2.1], ?_⟩
      rw [hrec.2.2, List.range_succ_eq_map]
      simp only [List.map_cons, List.map_map]
      congr 1
      · simp [pow_zero, Nat.mul_one]
      · apply List.map_congr_left
        intro k _
        simp [Function.comp, pow_succ]
        ring

theorem retryAux_all_fail {E T C : Type} (fn : Nat → Except E T × List C)
    (errs : Nat → E) :
    ∀ (r i d : Nat), r ≠ 0 → (∀ k, (fn k).1 = .error (errs k)) →
    (retryAux fn i r d).outcome = .fnError (errs (i + (r - 1))) ∧
    (retryAux fn i r d).calls = r ∧
    (retryAux fn i r d).sleeps = (List.range (r - 1)).map (fun k => d * 2 ^ k) := by
  intro r
  induction r with
  | zero =>
      intro i d h0 _
      exact absurd rfl h0
  | succ n ih =>
      intro i d _ hfail
      rcases hfn : fn i with ⟨res, cs⟩
      have hres : res = .error (errs i) := by
        have := hfail i; rw [hfn] at this; exact this
      subst hres
      by_cases hn : n = 0
      · subst hn
        simp [retryAux, hfn]
      · simp only [retryAux, hfn, if_neg hn]
        have hrec := ih (i + 1) (2 * d) hn hfail
        obtain ⟨m, rfl⟩ : ∃ m, n = m + 1 := ⟨n - 1, by omega⟩
        refine ⟨?_, ?_, ?_⟩
        · rw [hrec.1]
          congr 2
          omega
        · rw [hrec.2.1]
        · rw [hrec.2.2]
          have hm : m + 1 + 1 - 1 = m + 1 := rfl
          rw [hm, List.range_succ_eq_map]
          simp only [List.map_cons, List.map_map]
          congr 1
          · simp [pow_zero, Nat.mul_one]
          · have hm2 : m + 1 - 1 = m := rfl
            rw [hm2]
            apply List.map_congr_left
            intro k _
            simp [Function.comp, pow_succ]
            ring

theorem retryAux_ne_retryFailed {E T C : Type}
    (fn : Nat → Except E T × List C) :
    ∀ (r i d : Nat), r ≠ 0 → (retryAux fn i r d).outcome ≠ .retryFailed := by
  intro r
  induction r with
  | zero =>
      intro i d h0
      exact absurd rfl h0
  | succ n ih =>
      intro i d _
      rcases hfn : fn i with ⟨res, cs⟩
      cases res with
      | ok t => simp [retryAux, hfn]
      | error e =>
          by_cases hn : n = 0
          · subst hn
            simp [retryAux, hfn]
          · simp only [retryAux, hfn, if_neg hn]
            exact ih (i + 1) (2 * d) hn

theorem retryAux_outcome_cases {E T C : Type}
    (fn : Nat → Except E T × List C) :
    ∀ (r i d : Nat),
    (retryAux fn i r d).outcome = .retryFailed ∨
    (∃ k, ∃ v, (fn k).1 = .ok v ∧ (retryAux fn i r d).outcome = .ok v) ∨
    (∃ k, ∃ e, (fn k).1 = .error e ∧
      (retryAux fn i r d).outcome = .fnError e) := by
  intro r
  induction r with
  | zero =>
      intro i d
      left
      rfl
  | succ n ih =>
      intro i d
      rcases hfn : fn i with ⟨res, cs⟩
      cases res with
      | ok t =>
          right; left
          exact ⟨i, t, by rw [hfn], by simp [retryAux, hfn]⟩
      | error e =>
          by_cases hn : n = 0
          · subst hn
            right; right
            exact ⟨i, e, by rw [hfn], by simp [retryAux, hfn]⟩
          · simp only [retryAux, hfn, if_neg hn]
            exact ih (i + 1) (2 * d)

theorem retryAux_emitted_mem {E T C : Type}
    (fn : Nat → Except E T × List C) :
    ∀ (r i d : Nat) (c : C),
    c ∈ (retryAux fn i r d).emitted → ∃ k, c ∈ (fn k).2 := by
  intro r
  induction r with
  | zero =>
      intro i d c hc
      simp [retryAux] at hc
  | succ n ih =>
      intro i d c hc
      rcases hfn : fn i with ⟨res, cs⟩
      cases res with
      | ok t =>
          simp only [retryAux, hfn] at hc
          exact ⟨i, by rw [hfn]; exact hc⟩
      | error e =>
          by_cases hn : n = 0
          · subst hn
            simp [retryAux, hfn] at hc
            exact ⟨i, by rw [hfn]; simpa using hc⟩
          · simp only [retryAux, hfn, if_neg hn] at hc
            rcases List.mem_append.mp hc with h | h
            · exact ⟨i, by rw [hfn]; exact h⟩
            · exact ih (i + 1) (2 * d) c h

/-! ## Persistence adapter (`saveToNotion`, `src/api/webhook.ts` lines 94-131)

The page-creation payload is modelled as the list of properties actually
present on the wire: a key set to `undefined` in the JavaScript object
literal is dropped by JSON serialization, so it never reaches the API. -/

/-- A Notion property value, restricted to the shapes this program builds.
`richText` carries the list of segment contents, in order. -/
inductive PropValue where
  | title (texts : List String) : PropValue
  | richText (texts : List String) : PropValue
  | multiSelect (names : List String) : PropValue
  | select (name : String) : PropValue
  | url (u : String) : PropValue
deriving Repr, DecidableEq

/-- JavaScript truthiness of an optional string: `undefined` and the empty
string are falsy. -/
def strTruthy : Option String → Bool
  | none => false
  | some s => !s.isEmpty

/-- JavaScript truthiness of `e.例文 && e.例文.length`: present and
non-empty. -/
def examplesTruthy : Option (List ExampleSentence) → Bool
  | none => false
  | some l => !l.isEmpty

/-- The `props` object of `saveToNotion` (lines 98-108), keeping only the
properties whose value is not `undefined`.  An optional string field is
rendered only when truthy (present and non-empty); an optional array field
is rendered whenever present (a JavaScript array, even empty, is truthy). -/
def buildProps (e : Entry) : List (String × PropValue) :=
  [("Vocabulary", PropValue.title [e.word])] ++
  (match e.phonetic with
   | some s => if s.isEmpty then [] else [("発音記号", PropValue.richText [s])]
   | none => []) ++
  (match e.partOfSpeech with
   | some l => [("品詞", PropValue.multiSelect l)]
   | none => []) ++
  [("意味", PropValue.richText (e.meanings.map (fun m => "• " ++ m)))] ++
  (match e.etymology with
   | some s => if s.isEmpty then [] else [("語源", PropValue.richText [s])]
   | none => []) ++
  (match e.collocations with
   | some l => [("コロケーション", PropValue.richText [String.intercalate ", " l])]
   | none => []) ++
  (match e.cefrLevel with
   | some s => if s.isEmpty then [] else [("CEFR", PropValue.select s)]
   | none => []) ++
  (match e.synonyms with
   | some l => [("類義語", PropValue.richText [String.intercalate ", " l])]
   | none => []) ++
  (match e.sourceUrl with
   | some s => if s.isEmpty then [] else [("出典URL", PropValue.url s)]
   | none => [])

/-- One bulleted list item of the block-append payload: the list of its
rich-text segment contents. -/
structure BulletItem where
  richTextContents : List String
deriving Repr, DecidableEq

/-- The item built for one example sentence (lines 119-127): the 英 text,
followed by an em-dash-prefixed 日 segment when the translation is truthy. -/
def exampleItem (s : ExampleSentence) : BulletItem :=
  ⟨[s.source] ++
    (match s.translation with
     | some t => if t.isEmpty then [] else ["  — " ++ t]
     | none => [])⟩

/-- The children of the block-append call: one bulleted item per example. -/
def exampleItems (e : Entry) : List BulletItem :=
  (match e.examples with
   | some l => l
   | none => []).map exampleItem

/-- An outbound Notion API call. -/
inductive ApiCall where
  | createPage (databaseId : String) (properties : List (String × PropValue)) :
      ApiCall
  | appendBlocks (pageId : String) (children : List BulletItem) : ApiCall
deriving Repr, DecidableEq

/-- One attempt of the retry-wrapped body of `saveToNotion`: create the
page; when that succeeds and the examples are truthy and non-empty, append
the bulleted items to the created page.  `createRes`/`appendRes` give the
outcome of the two external calls at each attempt index. -/
def saveAttempt {ε : Type} (dbId : String) (e : Entry)
    (createRes : Nat → Except ε String) (appendRes : Nat → Except ε Unit)
    (n : Nat) : Except ε Unit × List ApiCall :=
  match createRes n with
  | .error err => (.error err, [.createPage dbId (buildProps e)])
  | .ok pageId =>
      if examplesTruthy e.examples then
        match appendRes n with
        | .error err =>
            (.error err, [.createPage dbId (buildProps e),
              .appendBlocks pageId (exampleItems e)])
        | .ok _ =>
            (.ok (), [.createPage dbId (buildProps e),
              .appendBlocks pageId (exampleItems e)])
      else (.ok (), [.createPage dbId (buildProps e)])

/-- Result of a `saveToNotion` invocation. -/
inductive SaveOutcome (ε : Type) where
  | notInitialized : SaveOutcome ε
  | retried (o : RetryOutcome ε Unit) : SaveOutcome ε
deriving Repr, DecidableEq

/-- Trace of a `saveToNotion` invocation: its outcome, how many times the
retry wrapper invoked the body, the backoff sleeps, and the Notion calls
issued. -/
structure SaveTrace (ε : Type) where
  outcome : SaveOutcome ε
  attempts : Nat
  sleeps : List Nat
  calls : List ApiCall
deriving Repr, DecidableEq

/-- `saveToNotion(e)`: throws "Notion client not initialized" before
entering the retry wrapper when the client was not configured; otherwise
runs the two-step body under `retry` with the default `maxRetries = 3`,
`delay = 1000`. -/
def saveToNotion {ε : Type} (notionConfigured : Bool) (dbId : String)
    (e : Entry) (createRes : Nat → Except ε String)
    (appendRes : Nat → Except ε Unit) : SaveTrace ε :=
  if notionConfigured then
    let t := retryRun (saveAttempt dbId e createRes appendRes) 3 1000
    ⟨.retried t.outcome, t.calls, t.sleeps, t.emitted⟩
  else ⟨.notInitialized, 0, [], []⟩

/-! ## Entry builder (`buildEntry`, `src/api/webhook.ts` lines 59-91)

The language-model call is external input; one attempt of the retry-wrapped
body is determined by the completion the model returns at that attempt. -/

/-- What the chat-completion call produced at one attempt: a transport
failure, a completion with missing/empty content (falsy text), or content
text given by the result of `JSON.parse` on it. -/
inductive CompletionResult where
  | apiFailure (msg : String) : CompletionResult
  | noContent : CompletionResult
  | content (parsed : Except Unit Json) : CompletionResult

/-- An error thrown by one attempt of the `buildEntry` body. -/
inductive BuildAttemptErr where
  | transport (msg : String) : BuildAttemptErr
  | noResponse : BuildAttemptErr
  | jsonSyntax : BuildAttemptErr
  | validation (e : ZodIssue) : BuildAttemptErr

/-- One attempt of the `buildEntry` body: propagate a transport failure,
throw "No response from OpenAI" on falsy content, propagate a JSON syntax
error, and otherwise validate with `Schema.parse` of `src/api/webhook.ts`. -/
def buildAttempt (resp : Nat → CompletionResult) (n : Nat) :
    Except BuildAttemptErr Entry :=
  match resp n with
  | .apiFailure m => .error (.transport m)
  | .noContent => .error .noResponse
  | .content (.error _) => .error .jsonSyntax
  | .content (.ok j) => (Schema_parse j).mapError .validation

set_option linter.unusedVariables false in
/-- `buildEntry(word)`: the retry-wrapped body with the default
`maxRetries = 3`, `delay = 1000`.  The input word appears only in the
prompt; the returned entry is whatever the model response parses to. -/
def buildEntry (word : String) (resp : Nat → CompletionResult) :
    RetryTrace BuildAttemptErr Entry Unit :=
  retry (buildAttempt resp) 3 1000

/-! ## Event dispatcher (`handler` / `handleEventSafely`,
`src/api/webhook.ts` lines 134-180) -/

/-- An inbound webhook event: a message event whose message is or is not a
text message (message events always carry a reply token), or any other
event kind, which may or may not carry one. -/
inductive LineEvent where
  | message (isText : Bool) (text : String) (replyToken : String) : LineEvent
  | other (replyToken : Option String) : LineEvent
deriving Repr, DecidableEq

/-- Drop leading whitespace characters. -/
def dropLeadingWs : List Char → List Char
  | [] => []
  | c :: cs => if c.isWhitespace then dropLeadingWs cs else c :: cs

/-- Model of JavaScript `String.prototype.trim`: strip whitespace from both
ends. -/
def jsTrim (s : String) : String :=
  String.mk ((dropLeadingWs ((dropLeadingWs s.data).reverse)).reverse)

/-- The `"replyToken" in event` test. -/
def eventReplyToken : LineEvent → Option String
  | .message _ _ tok => some tok
  | .other tok => tok

/-- The success confirmation text. -/
def successText (w : String) : String :=
  "「" ++ w ++ "」をNotionに追加しました ✅"

/-- The fixed failure notice text. -/
def failureText : String :=
  "登録中にエラーが発生しました。もう一度お試しください。"

/-- An observable action of one event handler run.  The two reply call
sites of the source are distinguished: `replied` is the success
confirmation (line 162), `errorReplied` the fixed-text failure notice
(line 171). -/
inductive TraceAction where
  | logProcessing (word : String) : TraceAction
  | logBuilt (word : String) : TraceAction
  | logSaved (word : String) : TraceAction
  | replied (token : String) (text : String) : TraceAction
  | logEventError : TraceAction
  | errorReplied (token : String) : TraceAction
  | logReplyFailed : TraceAction
deriving Repr, DecidableEq

/-- An error escaping the `try` body of `handleEventSafely`:
thrown by `buildEntry`, by `saveToNotion`, or by the success
`replyMessage`.  `buildRetryExhausted` / `saveRetryExhausted` stand for the
wrapper's own "Retry failed" error (unreachable with the default
`maxRetries = 3`). -/
inductive HandlerErr (ε : Type) where
  | buildErr (e : BuildAttemptErr) : HandlerErr ε
  | buildRetryExhausted : HandlerErr ε
  | saveNotInitialized : HandlerErr ε
  | saveErr (e : ε) : HandlerErr ε
  | saveRetryExhausted : HandlerErr ε
  | replyErr (e : ε) : HandlerErr ε

/-- The environment of one dispatcher run: which clients are configured and
the outcomes of every external call the run may make. -/
structure DispatchEnv (ε : Type) where
  lineConfigured : Bool
  notionConfigured : Bool
  databaseId : String
  completion : String → Nat → CompletionResult
  createRes : Nat → Except ε String
  appendRes : Nat → Except ε Unit
  replyRes : String → Except ε Unit
  errorReplyRes : String → Except ε Unit

/-- The `try` body of `handleEventSafely` (lines 150-166): the actions it
performed, and the error that escaped it, if any. -/
def handleEventBody {ε : Type} (env : DispatchEnv ε) (ev : LineEvent) :
    List TraceAction × Option (HandlerErr ε) :=
  match ev with
  | .other _ => ([], none)
  | .message false _ _ => ([], none)
  | .message true text tok =>
      if (jsTrim text).isEmpty then ([], none)
      else
        match (buildEntry (jsTrim text) (env.completion (jsTrim text))).outcome with
        | .fnError e => ([.logProcessing (jsTrim text)], some (.buildErr e))
        | .retryFailed =>
            ([.logProcessing (jsTrim text)], some .buildRetryExhausted)
        | .ok entry =>
            match (saveToNotion env.notionConfigured env.databaseId entry
                env.createRes env.appendRes).outcome with
            | .notInitialized =>
                ([.logProcessing (jsTrim text), .logBuilt entry.word],
                  some .saveNotInitialized)
            | .retried (.fnError e) =>
                ([.logProcessing (jsTrim text), .logBuilt entry.word],
                  some (.saveErr e))
            | .retried .retryFailed =>
                ([.logProcessing (jsTrim text), .logBuilt entry.word],
                  some .saveRetryExhausted)
            | .retried (.ok _) =>
                if env.lineConfigured then
                  match env.replyRes tok with
                  | .ok _ =>
                      ([.logProcessing (jsTrim text), .logBuilt entry.word,
                        .logSaved entry.word,
                        .replied tok (successText entry.word)], none)
                  | .error e =>
                      ([.logProcessing (jsTrim text), .logBuilt entry.word,
                        .logSaved entry.word], some (.replyErr e))
                else
                  ([.logProcessing (jsTrim text), .logBuilt entry.word,
                    .logSaved entry.word], none)

/-- `handleEventSafely` (lines 149-180): run the body; on an escaping
error, log it and, when the event carries a reply token and the reply
client is configured, attempt the fixed-text failure notice, logging (and
swallowing) a failure of that attempt.  The function always returns a
plain list of actions — no error propagates past it. -/
def handleEventSafely {ε : Type} (env : DispatchEnv ε) (ev : LineEvent) :
    List TraceAction :=
  match handleEventBody env ev with
  | (acts, none) => acts
  | (acts, some _) =>
      acts ++ [.logEventError] ++
        (match eventReplyToken ev, env.lineConfigured with
         | some tok, true =>
             match env.errorReplyRes tok with
             | .ok _ => [.errorReplied tok]
             | .error _ => [.logReplyFailed]
         | _, _ => [])

/-- The webhook `handler` (lines 134-147): 405 for a non-POST method;
otherwise dispatch every event of the batch through `handleEventSafely`
(the `Promise.all` fan-out) and answer 200.  Since `handleEventSafely`
always returns a value, the `Promise.all` never rejects and the catch branch
(500) is reachable only for a malformed request body, which is outside
this model. -/
def handler {ε : Type} (env : DispatchEnv ε) (method : String)
    (events : List LineEvent) : Nat × List (List TraceAction) :=
  if method ≠ "POST" then (405, [])
  else (200, events.map (handleEventSafely env))

/-! ## The claims -/

/-- Claim C6: for every Entry, if the Notion client was never configured,
`saveToNotion` fails immediately with the not-initialized error, performing
zero attempts, zero sleeps (no retry), and issuing no page-creation or
block-append call. -/
theorem c6_not_initialized_no_retry {ε : Type} (dbId : String) (e : Entry)
    (createRes : Nat → Except ε String) (appendRes : Nat → Except ε Unit) :
    saveToNotion false dbId e createRes appendRes =
      ⟨SaveOutcome.notInitialized, 0, [], []⟩ := rfl

/-- The entry of the persistence-mapping test vector of the specification:
word "ubiquitous", one meaning, every optional field absent. -/
def ubiquitousEntry : Entry :=
  ⟨"ubiquitous", none, none, ["at or in all places"], none, none, none,
    none, none, none⟩

/-- The call is a block-append call. -/
def isAppendCall : ApiCall → Bool
  | .appendBlocks _ _ => true
  | _ => false

/-- Claim C4: for the Entry with word "ubiquitous", one meaning and no
optional fields, the page-creation payload holds exactly the title property
"ubiquitous" and the meanings rich-text property "• at or in all places" —
no part-of-speech, CEFR, etymology, synonyms or URL property — and no
block-append call is issued by any attempt. -/
theorem c4_persistence_mapping {ε : Type} (dbId : String)
    (createRes : Nat → Except ε String) (appendRes : Nat → Except ε Unit)
    (n : Nat) :
    buildProps ubiquitousEntry =
      [("Vocabulary", PropValue.title ["ubiquitous"]),
       ("意味", PropValue.richText ["• at or in all places"])] ∧
    examplesTruthy ubiquitousEntry.examples = false ∧
    ((saveAttempt dbId ubiquitousEntry createRes appendRes n).2.all
      fun c => !isAppendCall c) = true := by
  refine ⟨rfl, rfl, ?_⟩
  cases h : createRes n with
  | error err => simp [saveAttempt, h, isAppendCall]
  | ok pid =>
      simp [saveAttempt, h, isAppendCall, examplesTruthy, ubiquitousEntry]

/-- Claim C10: an optional string field (phonetic, etymology, CEFR, source
URL) that is present but empty is rendered exactly as if it were absent,
and an example whose translation is present but empty is rendered with only
its source text: presence on the wire is decided by truthiness. -/
theorem c10_empty_string_truthiness (e : Entry) (src : String) :
    buildProps { e with phonetic := some "" } =
      buildProps { e with phonetic := none } ∧
    buildProps { e with etymology := some "" } =
      buildProps { e with etymology := none } ∧
    buildProps { e with cefrLevel := some "" } =
      buildProps { e with cefrLevel := none } ∧
    buildProps { e with sourceUrl := some "" } =
      buildProps { e with sourceUrl := none } ∧
    exampleItem ⟨src, some ""⟩ = exampleItem ⟨src, none⟩ := by
  obtain ⟨w, ph, pos, mean, ety, col, ex, cefr, syn, url⟩ := e
  refine ⟨?_, ?_, ?_, ?_, rfl⟩ <;> simp [buildProps] <;> decide

/-- The two-example Entry of the specification's block-append test vector. -/
def twoExampleEntry : Entry :=
  ⟨"ubiquitous", none, none, ["at or in all places"], none, none,
    some [⟨"It is ubiquitous.", some "それは普遍的だ。"⟩,
      ⟨"Ubiquitous computing.", none⟩],
    none, none, none⟩

theorem saveAttempt_append_truthy {ε : Type} (dbId : String) (e : Entry)
    (createRes : Nat → Except ε String) (appendRes : Nat → Except ε Unit)
    (n : Nat) (pid : String) (ch : List BulletItem)
    (h : ApiCall.appendBlocks pid ch ∈
      (saveAttempt dbId e createRes appendRes n).2) :
    examplesTruthy e.examples = true := by
  cases hc : createRes n with
  | error err => simp [saveAttempt, hc] at h
  | ok p =>
      by_cases ht : examplesTruthy e.examples
      · exact ht
      · simp [saveAttempt, hc, ht] at h

/-- Claim C7: for the two-example Entry (first example with translation,
second without), the block-append children are exactly two bulleted items —
the first pairing the source text with the em-dash-prefixed translation
segment, the second holding only the source text — and a block-append call
is issued by `saveToNotion` only when the examples are present and
non-empty. -/
theorem c7_append_blocks {ε : Type} (cfg : Bool) (dbId : String) (e : Entry)
    (createRes : Nat → Except ε String) (appendRes : Nat → Except ε Unit)
    (pid : String) (ch : List BulletItem) :
    exampleItems twoExampleEntry =
      [⟨["It is ubiquitous.", "  — それは普遍的だ。"]⟩,
       ⟨["Ubiquitous computing."]⟩] ∧
    (ApiCall.appendBlocks pid ch ∈
        (saveToNotion cfg dbId e createRes appendRes).calls →
      examplesTruthy e.examples = true) := by
  refine ⟨rfl, ?_⟩
  intro hmem
  cases cfg with
  | false => simp [saveToNotion] at hmem
  | true =>
      simp only [saveToNotion, if_pos] at hmem
      obtain ⟨k, hk⟩ := retryAux_emitted_mem
        (saveAttempt dbId e createRes appendRes) ((3 : Int).toNat) 0 1000
        (ApiCall.appendBlocks pid ch) hmem
      exact saveAttempt_append_truthy dbId e createRes appendRes k pid ch hk

/-- Witness for C7: a configured client saving the two-example Entry with
both calls succeeding does issue the block-append call, and the theorem
yields that the examples were present and non-empty. -/
theorem c7_append_blocks_witness :
    examplesTruthy twoExampleEntry.examples = true :=
  (c7_append_blocks true "db" twoExampleEntry
      (fun _ => (Except.ok "p1" : Except Unit String))
      (fun _ => (Except.ok () : Except Unit Unit))
      "p1" (exampleItems twoExampleEntry)).2
    (by decide)

theorem parseMeanings_ok_nonempty (v : Option Json) (xs : List String)
    (h : parseMeanings v = .ok xs) : xs ≠ [] := by
  rcases v with _ | j
  · simp [parseMeanings] at h
  · simp only [parseMeanings] at h
    cases hp : parseStringList "意味" j with
    | error e => rw [hp] at h; cases h
    | ok ys =>
        rw [hp] at h
        replace h : (if ys.length < 1 then
            (Except.error (ZodIssue.tooSmall "意味") :
              Except ZodIssue (List String))
          else Except.ok ys) = Except.ok xs := h
        by_cases hl : ys.length < 1
        · rw [if_pos hl] at h; cases h
        · rw [if_neg hl] at h
          cases h
          intro hnil
          subst hnil
          simp at hl

theorem parseExamples_ok_bounds (v : Option Json)
    (o : Option (List ExampleSentence)) (h : parseExamples v = .ok o) :
    ∀ l, o = some l → 1 ≤ l.length ∧ l.length ≤ 3 := by
  rcases v with _ | j
  · simp only [parseExamples] at h
    cases h
    intro l hl
    cases hl
  · cases j <;> simp only [parseExamples] at h <;> try (cases h)
    case arr xs =>
      cases hp : xs.mapM parseExampleSentence with
      | error e => rw [hp] at h; cases h
      | ok ys =>
          rw [hp] at h
          replace h : (if ys.length < 1 then
              (Except.error (ZodIssue.tooSmall "例文") :
                Except ZodIssue (Option (List ExampleSentence)))
            else if 3 < ys.length then Except.error (ZodIssue.tooBig "例文")
            else Except.ok (some ys)) = Except.ok o := h
          by_cases h1 : ys.length < 1
          · rw [if_pos h1] at h; cases h
          · rw [if_neg h1] at h
            by_cases h3 : 3 < ys.length
            · rw [if_pos h3] at h; cases h
            · rw [if_neg h3] at h
              cases h
              intro l hl
              cases hl
              omega

/-- A model response whose 単語 is the empty string (and so differs from
any non-empty input word) but which conforms to the schema. -/
def emptyWordJson : Json :=
  .obj [("単語", .str ""), ("意味", .arr [.str "どこにでもある"])]

/-- The model answers every attempt with `emptyWordJson`. -/
def emptyWordResponse : Nat → CompletionResult :=
  fun _ => .content (.ok emptyWordJson)

/-- The entry that `emptyWordJson` parses to. -/
def emptyWordEntry : Entry :=
  ⟨"", none, none, ["どこにでもある"], none, none, none, none, none, none⟩

/-- Counterexample to claim C1: asked about the (already trimmed, non-empty)
word "hello", the builder accepts a model response whose 単語 field is the
empty string, returning an Entry whose word field is empty and differs from
the input — the schema does not tie 単語 to the input word. -/
theorem c1_word_invariant_counterexample :
    (buildEntry "hello" emptyWordResponse).outcome =
      RetryOutcome.ok emptyWordEntry ∧
    emptyWordEntry.word = "" ∧
    decide (emptyWordEntry.word = "hello") = false := by
  refine ⟨rfl, rfl, by decide⟩

theorem buildEntry_ok_parse (word : String) (resp : Nat → CompletionResult)
    (e : Entry) (h : (buildEntry word resp).outcome = RetryOutcome.ok e) :
    ∃ j, Schema_parse j = .ok e := by
  have h' : (retryAux (fun n => (buildAttempt resp n, ([] : List Unit)))
      0 ((3 : Int).toNat) 1000).outcome = RetryOutcome.ok e := h
  have hc := retryAux_outcome_cases
    (fun n => (buildAttempt resp n, ([] : List Unit))) ((3 : Int).toNat) 0 1000
  rcases hc with hrf | ⟨k, v, hfn, hout⟩ | ⟨k, er, hfn, hout⟩
  · rw [h'] at hrf
    cases hrf
  · rw [h'] at hout
    replace hfn : buildAttempt resp k = Except.ok v := hfn
    cases hout
    simp only [buildAttempt] at hfn
    cases hr : resp k with
    | apiFailure m => rw [hr] at hfn; cases hfn
    | noContent => rw [hr] at hfn; cases hfn
    | content parsed =>
        cases parsed with
        | error pe => rw [hr] at hfn; cases hfn
        | ok j =>
            rw [hr] at hfn
            replace hfn : Except.mapError BuildAttemptErr.validation
                (Schema_parse j) = Except.ok e := hfn
            cases hs : Schema_parse j with
            | error se => rw [hs] at hfn; cases hfn
            | ok e2 =>
                rw [hs] at hfn
                cases hfn
                exact ⟨j, hs⟩
  · rw [h'] at hout
    cases hout

/-- Claim C1 amended: `buildEntry` guarantees exactly the schema invariants
of the returned Entry — the meanings are non-empty and the examples, when
present, number 1 to 3 — but not the word invariant: the word field is
whatever string the model's response carried, and may be empty or differ
from the input word (see the counterexample). -/
theorem c1_word_invariant_amended (word : String)
    (resp : Nat → CompletionResult) (e : Entry)
    (h : (buildEntry word resp).outcome = RetryOutcome.ok e) :
    e.meanings ≠ [] ∧
    (∀ l, e.examples = some l → 1 ≤ l.length ∧ l.length ≤ 3) := by
  obtain ⟨j, hj⟩ := buildEntry_ok_parse word resp e h
  obtain ⟨fs, rfl⟩ := SchemaParse_ok_obj false j e hj
  have hf := SchemaParse_ok_fields false fs e hj
  exact ⟨parseMeanings_ok_nonempty _ _ hf.2.2.2.1,
    parseExamples_ok_bounds _ _ hf.2.2.2.2.2.2.1⟩

/-- Witness for the amended C1 at a concrete run of the builder. -/
theorem c1_word_invariant_amended_witness :
    emptyWordEntry.meanings ≠ [] ∧
    (∀ l, emptyWordEntry.examples = some l →
      1 ≤ l.length ∧ l.length ≤ 3) :=
  c1_word_invariant_amended "hello" emptyWordResponse emptyWordEntry rfl

/-- A candidate whose 出典URL is present but is not a URL. -/
def badUrlJson : Json :=
  .obj [("単語", .str "apple"), ("意味", .arr [.str "りんご"]),
    ("出典URL", .str "not a url")]

/-- Counterexample to claim C2: the schema of `src/api/webhook.ts` has no
URL-format check on 出典URL (`z.string().optional()`, without `.url()`), so
its `Schema.parse` accepts a candidate whose 出典URL is not a valid URL. -/
theorem c2_url_validation_counterexample :
    isValidURL "not a url" = false ∧
    Schema_parse badUrlJson =
      Except.ok ⟨"apple", none, none, ["りんご"], none, none, none, none,
        none, some "not a url"⟩ := by
  exact ⟨rfl, rfl⟩

/-- Claim C2 amended: only the schema of `src/dist/server.js` carries the
URL-format check: its `Schema.parse` fails on every candidate whose 出典URL
is present but not a valid URL, while the `src/api/webhook.ts` schema
accepts any string there (see the counterexample). -/
theorem c2_url_validation_amended (fs : List (String × Json)) (u : String)
    (hu : lookupKey fs "出典URL" = some (Json.str u))
    (hv : isValidURL u = false) :
    (SchemaServer_parse (Json.obj fs)).isOk = false := by
  cases hok : SchemaServer_parse (Json.obj fs) with
  | error e => rfl
  | ok e =>
      exfalso
      have hf := SchemaParse_ok_fields true fs e hok
      have h10 := hf.2.2.2.2.2.2.2.2.2.1
      rw [hu] at h10
      replace h10 : (Except.ok (some u) : Except ZodIssue (Option String)) =
        Except.ok e.sourceUrl := h10
      have hsrc : e.sourceUrl = some u := (Except.ok.inj h10).symm
      have hval := hf.2.2.2.2.2.2.2.2.2.2 rfl u hsrc
      rw [hv] at hval
      cases hval

/-- Witness for the amended C2: the bad-URL candidate is rejected by the
`src/dist/server.js` schema. -/
theorem c2_url_validation_amended_witness :
    (SchemaServer_parse (Json.obj [("単語", Json.str "apple"),
      ("意味", Json.arr [Json.str "りんご"]),
      ("出典URL", Json.str "not a url")])).isOk = false :=
  c2_url_validation_amended
    [("単語", Json.str "apple"), ("意味", Json.arr [Json.str "りんご"]),
      ("出典URL", Json.str "not a url")]
    "not a url" rfl rfl

/-- Claim C5: `Schema.parse` succeeds exactly on candidates matching the
declared schema; a successful parse maps every omitted optional field to an
absent field; a missing or empty 意味 fails; an 例文 list with more than 3
items fails. -/
theorem c5_parse_exactness (j : Json) :
    ((Schema_parse j).isOk = true ↔ matchesSchema j = true) ∧
    (∀ e fs, j = Json.obj fs → Schema_parse j = .ok e →
      (lookupKey fs "発音記号" = none → e.phonetic = none) ∧
      (lookupKey fs "品詞" = none → e.partOfSpeech = none) ∧
      (lookupKey fs "語源" = none → e.etymology = none) ∧
      (lookupKey fs "コロケーション" = none → e.collocations = none) ∧
      (lookupKey fs "例文" = none → e.examples = none) ∧
      (lookupKey fs "CEFR" = none → e.cefrLevel = none) ∧
      (lookupKey fs "類義語" = none → e.synonyms = none) ∧
      (lookupKey fs "出典URL" = none → e.sourceUrl = none)) ∧
    (∀ fs, j = Json.obj fs →
      lookupKey fs "意味" = none ∨ lookupKey fs "意味" = some (Json.arr []) →
      (Schema_parse j).isOk = false) ∧
    (∀ fs xs, j = Json.obj fs → lookupKey fs "例文" = some (Json.arr xs) →
      3 < xs.length → (Schema_parse j).isOk = false) := by
  refine ⟨by rw [Schema_parse_isOk], ?_, ?_, ?_⟩
  · rintro e fs rfl hok
    have hf := SchemaParse_ok_fields false fs e hok
    refine ⟨?_, ?_, ?_, ?_, ?_, ?_, ?_, ?_⟩
    · intro hn
      have h2 := hf.2.1
      rw [hn] at h2
      exact (Except.ok.inj h2).symm
    · intro hn
      have h3 := hf.2.2.1
      rw [hn] at h3
      exact (Except.ok.inj h3).symm
    · intro hn
      have h5 := hf.2.2.2.2.1
      rw [hn] at h5
      exact (Except.ok.inj h5).symm
    · intro hn
      have h6 := hf.2.2.2.2.2.1
      rw [hn] at h6
      exact (Except.ok.inj h6).symm
    · intro hn
      have h7 := hf.2.2.2.2.2.2.1
      rw [hn] at h7
      exact (Except.ok.inj h7).symm
    · intro hn
      have h8 := hf.2.2.2.2.2.2.2.1
      rw [hn] at h8
      exact (Except.ok.inj h8).symm
    · intro hn
      have h9 := hf.2.2.2.2.2.2.2.2.1
      rw [hn] at h9
      exact (Except.ok.inj h9).symm
    · intro hn
      have h10 := hf.2.2.2.2.2.2.2.2.2.1
      rw [hn] at h10
      exact (Except.ok.inj h10).symm
  · rintro fs rfl hcase
    rw [Schema_parse_isOk]
    rcases hcase with hn | hn <;>
      simp [matchesSchema, meaningsConforms, hn]
  · rintro fs xs rfl hl hlen
    rw [Schema_parse_isOk]
    simp [matchesSchema, examplesConforms, hl]
    intro _ _ _ h3
    omega

/-- Witness for C5: a candidate with a missing 意味 field is rejected. -/
theorem c5_parse_exactness_witness :
    (Schema_parse (Json.obj [("単語", Json.str "x")])).isOk = false :=
  (c5_parse_exactness (Json.obj [("単語", Json.str "x")])).2.2.1
    [("単語", Json.str "x")] rfl (Or.inl rfl)

/-- Claim C3 amended: restricted to `maxRetries ≥ 1` (at `maxRetries ≤ 0`
the wrapper throws its own generic error without invoking the operation,
see the counterexample).  An operation failing `N` times then succeeding,
with `N < maxRetries`, yields the success value after exactly `N + 1`
invocations with sleeps `delay, 2·delay, 4·delay, ...`; an operation that
always fails is invoked exactly `maxRetries` times and its final error is
rethrown unchanged. -/
theorem c3_retry_behaviour {E T : Type} (fn : Nat → Except E T)
    (errs : Nat → E) (v : T) (N : Nat) (m : Int) (d : Nat) :
    ((∀ k, k < N → fn k = .error (errs k)) → fn N = .ok v → (N : Int) < m →
      (retry fn m d).outcome = RetryOutcome.ok v ∧
      (retry fn m d).calls = N + 1 ∧
      (retry fn m d).sleeps = (List.range N).map (fun k => d * 2 ^ k)) ∧
    ((∀ k, fn k = .error (errs k)) → 1 ≤ m →
      (retry fn m d).outcome = RetryOutcome.fnError (errs (m.toNat - 1)) ∧
      (retry fn m d).calls = m.toNat ∧
      (retry fn m d).sleeps =
        (List.range (m.toNat - 1)).map (fun k => d * 2 ^ k)) := by
  constructor
  · intro hfail hok hm
    have hN : N < m.toNat := by omega
    exact retryAux_fail_then_ok (fun n => (fn n, ([] : List Unit))) errs v N
      0 m.toNat d
      (fun k hk => by simpa using hfail k hk)
      (by simpa using hok)
      hN
  · intro hfail hm
    have hne : m.toNat ≠ 0 := by omega
    have hres := retryAux_all_fail (fun n => (fn n, ([] : List Unit))) errs
      m.toNat 0 d hne (fun k => by simpa using hfail k)
    simpa using hres

/-- Counterexample to C3 as stated: at `maxRetries = 0` an always-failing
operation is invoked zero times and `retry` throws its own generic
"Retry failed" error, not the operation's error. -/
theorem c3_retry_counterexample :
    (retry (fun _ => (Except.error "boom" : Except String Nat))
        0 1000).outcome = RetryOutcome.retryFailed ∧
    (retry (fun _ => (Except.error "boom" : Except String Nat))
        0 1000).calls = 0 ∧
    decide ((RetryOutcome.retryFailed : RetryOutcome String Nat) =
      RetryOutcome.fnError "boom") = false := by
  refine ⟨rfl, rfl, by decide⟩

/-- The operation of the C3 witness: fails once, then succeeds. -/
def failOnceFn : Nat → Except String Nat :=
  fun k => if k = 0 then .error "first failure" else .ok 42

/-- Witness for the amended C3: with defaults, a fail-once operation
succeeds on the second invocation after one 1000 ms sleep. -/
theorem c3_retry_behaviour_witness :
    (retry failOnceFn 3 1000).outcome = RetryOutcome.ok 42 ∧
    (retry failOnceFn 3 1000).calls = 1 + 1 ∧
    (retry failOnceFn 3 1000).sleeps =
      (List.range 1).map (fun k => 1000 * 2 ^ k) :=
  (c3_retry_behaviour failOnceFn (fun _ => "first failure") 42 1 3 1000).1
    (by
      intro k hk
      interval_cases k
      rfl)
    rfl
    (by decide)

/-- Claim C9: `retry` throws its own generic "Retry failed" error exactly
when `maxRetries ≤ 0`, in which case the operation is never invoked; for
`maxRetries ≥ 1` the trailing throw is unreachable and the outcome is
always a value returned by the operation or an error thrown by it. -/
theorem c9_retry_guard {E T : Type} (fn : Nat → Except E T) (m : Int)
    (d : Nat) :
    ((retry fn m d).outcome = RetryOutcome.retryFailed ↔ m ≤ 0) ∧
    (m ≤ 0 → (retry fn m d).calls = 0) ∧
    (1 ≤ m →
      (∃ k v, fn k = .ok v ∧
        (retry fn m d).outcome = RetryOutcome.ok v) ∨
      (∃ k e, fn k = .error e ∧
        (retry fn m d).outcome = RetryOutcome.fnError e)) := by
  refine ⟨⟨?_, ?_⟩, ?_, ?_⟩
  · intro hrf
    by_contra hpos
    have hne : m.toNat ≠ 0 := by omega
    exact retryAux_ne_retryFailed (fun n => (fn n, ([] : List Unit)))
      m.toNat 0 d hne hrf
  · intro hle
    have h0 : m.toNat = 0 := by omega
    show (retryAux (fun n => (fn n, ([] : List Unit)))
      0 m.toNat d).outcome = _
    rw [h0]
    rfl
  · intro hle
    have h0 : m.toNat = 0 := by omega
    show (retryAux (fun n => (fn n, ([] : List Unit))) 0 m.toNat d).calls = 0
    rw [h0]
    rfl
  · intro hm
    have hne : m.toNat ≠ 0 := by omega
    rcases retryAux_outcome_cases (fun n => (fn n, ([] : List Unit)))
      m.toNat 0 d with hrf | ⟨k, v, hfn, hout⟩ | ⟨k, e, hfn, hout⟩
    · exact absurd hrf (retryAux_ne_retryFailed _ m.toNat 0 d hne)
    · exact Or.inl ⟨k, v, by simpa using hfn, hout⟩
    · exact Or.inr ⟨k, e, by simpa using hfn, hout⟩

/-- The operation of the C9 witness: always succeeds with 7. -/
def alwaysOk7 : Nat → Except String Nat := fun _ => Except.ok 7

/-- Witness for C9: with two attempts allowed, the outcome comes from the
operation itself. -/
theorem c9_retry_guard_witness :
    (∃ k v, alwaysOk7 k = .ok v ∧
      (retry alwaysOk7 2 1000).outcome = RetryOutcome.ok v) ∨
    (∃ k e, alwaysOk7 k = .error e ∧
      (retry alwaysOk7 2 1000).outcome = RetryOutcome.fnError e) :=
  (c9_retry_guard alwaysOk7 2 1000).2.2 (by decide)

theorem handleEventBody_no_error_actions {ε : Type} (env : DispatchEnv ε)
    (ev : LineEvent) (a : TraceAction)
    (ha : a ∈ (handleEventBody env ev).1) :
    a ≠ TraceAction.logEventError ∧
    (∀ t, a ≠ TraceAction.errorReplied t) ∧
    a ≠ TraceAction.logReplyFailed := by
  unfold handleEventBody at ha
  repeat' split at ha
  all_goals simp_all
  all_goals rcases ha with rfl | rfl | rfl | rfl <;> simp

/-- Claim C8: `handleEventSafely` never propagates an error — it always
returns a plain action list; the fixed-text failure notice is attempted
only when the body failed, the event carries a reply token and the reply
client is configured; a failure while sending that notice is itself caught
and only logged (the run still returns its action list, ending in the log);
and the batch handler maps `handleEventSafely` over all events and answers
200 regardless of individual failures. -/
theorem c8_dispatcher_catches {ε : Type} (env : DispatchEnv ε)
    (ev : LineEvent) (events : List LineEvent) :
    handler env "POST" events = (200, events.map (handleEventSafely env)) ∧
    (∀ tok, TraceAction.errorReplied tok ∈ handleEventSafely env ev →
      eventReplyToken ev = some tok ∧ env.lineConfigured = true ∧
        (handleEventBody env ev).2 ≠ none) ∧
    (TraceAction.logReplyFailed ∈ handleEventSafely env ev →
      ∃ tok er, eventReplyToken ev = some tok ∧ env.lineConfigured = true ∧
        env.errorReplyRes tok = .error er) ∧
    (∀ err, (handleEventBody env ev).2 = some err →
      ∀ tok, eventReplyToken ev = some tok → env.lineConfigured = true →
      ∀ er, env.errorReplyRes tok = .error er →
      handleEventSafely env ev = (handleEventBody env ev).1 ++
        [TraceAction.logEventError, TraceAction.logReplyFailed]) := by
  refine ⟨by simp [handler], ?_, ?_, ?_⟩
  · intro tok hmem
    rcases hB : handleEventBody env ev with ⟨acts, err0⟩
    unfold handleEventSafely at hmem
    rw [hB] at hmem
    cases err0 with
    | none =>
        exfalso
        have hno := handleEventBody_no_error_actions env ev _
          (by rw [hB]; exact hmem)
        exact hno.2.1 tok rfl
    | some e =>
        rcases List.mem_append.mp hmem with h1 | h2
        · rcases List.mem_append.mp h1 with h1a | h1b
          · exfalso
            have hno := handleEventBody_no_error_actions env ev _
              (by rw [hB]; exact h1a)
            exact hno.2.1 tok rfl
          · simp at h1b
        · cases hrt : eventReplyToken ev with
          | none =>
              rw [hrt] at h2
              simp at h2
          | some tok2 =>
              rw [hrt] at h2
              cases hl : env.lineConfigured with
              | false =>
                  rw [hl] at h2
                  simp at h2
              | true =>
                  rw [hl] at h2
                  replace h2 : TraceAction.errorReplied tok ∈
                      (match env.errorReplyRes tok2 with
                       | Except.ok _ => [TraceAction.errorReplied tok2]
                       | Except.error _ => [TraceAction.logReplyFailed]) := h2
                  cases hr : env.errorReplyRes tok2 with
                  | ok u =>
                      rw [hr] at h2
                      simp at h2
                      subst h2
                      exact ⟨rfl, rfl, by simp⟩
                  | error er =>
                      rw [hr] at h2
                      simp at h2
  · intro hmem
    rcases hB : handleEventBody env ev with ⟨acts, err0⟩
    unfold handleEventSafely at hmem
    rw [hB] at hmem
    cases err0 with
    | none =>
        exfalso
        have hno := handleEventBody_no_error_actions env ev _
          (by rw [hB]; exact hmem)
        exact hno.2.2 rfl
    | some e =>
        rcases List.mem_append.mp hmem with h1 | h2
        · rcases List.mem_append.mp h1 with h1a | h1b
          · exfalso
            have hno := handleEventBody_no_error_actions env ev _
              (by rw [hB]; exact h1a)
            exact hno.2.2 rfl
          · simp at h1b
        · cases hrt : eventReplyToken ev with
          | none =>
              rw [hrt] at h2
              simp at h2
          | some tok2 =>
              rw [hrt] at h2
              cases hl : env.lineConfigured with
              | false =>
                  rw [hl] at h2
                  simp at h2
              | true =>
                  rw [hl] at h2
                  replace h2 : TraceAction.logReplyFailed ∈
                      (match env.errorReplyRes tok2 with
                       | Except.ok _ => [TraceAction.errorReplied tok2]
                       | Except.error _ => [TraceAction.logReplyFailed]) := h2
                  cases hr : env.errorReplyRes tok2 with
                  | ok u =>
                      rw [hr] at h2
                      simp at h2
                  | error er =>
                      exact ⟨tok2, er, rfl, rfl, hr⟩
  · intro err hErr tok hTok hCfg er hRep
    rcases hB : handleEventBody env ev with ⟨acts, err0⟩
    rw [hB] at hErr
    simp at hErr
    subst hErr
    unfold handleEventSafely
    rw [hB, hTok, hCfg]
    show acts ++ [TraceAction.logEventError] ++
        (match env.errorReplyRes tok with
         | Except.ok _ => [TraceAction.errorReplied tok]
         | Except.error _ => [TraceAction.logReplyFailed]) =
      acts ++ [TraceAction.logEventError, TraceAction.logReplyFailed]
    rw [hRep]
    simp

/-- The environment of the C8 witness: reply client configured, Notion
client not configured (so persistence fails), and a failing error-reply
transport. -/
def c8Env : DispatchEnv String :=
  ⟨true, false, "db",
    fun _ _ => CompletionResult.content (Except.ok (Json.obj
      [("単語", Json.str "apple"), ("意味", Json.arr [Json.str "りんご"])])),
    fun _ => Except.error "unused",
    fun _ => Except.error "unused",
    fun _ => Except.ok (),
    fun _ => Except.error "reply transport down"⟩

/-- The event of the C8 witness. -/
def c8Event : LineEvent := LineEvent.message true "apple" "tok1"

/-- Witness for C8: an event whose persistence fails and whose failure
notice also fails still yields a plain action list ending in the swallowed
reply-failure log. -/
theorem c8_dispatcher_catches_witness :
    handleEventSafely c8Env c8Event =
      (handleEventBody c8Env c8Event).1 ++
        [TraceAction.logEventError, TraceAction.logReplyFailed] :=
  (c8_dispatcher_catches c8Env c8Event []).2.2.2
    HandlerErr.saveNotInitialized rfl "tok1" rfl rfl
    "reply transport down" rfl
